import Mathlib

/-!
Shallow embedding of the EIP-4844 fee-market simulation core
(`eip-4844-sim.ipynb`): the transaction/block data model, the integer
exponential price oracle, the two price-update rules, and the greedy
block builder.  Prices and gas amounts are Python numbers (floats or
ints); they are embedded as rationals where the code mixes them, and as
naturals/integers where the code keeps exact integer arithmetic
(`fake_exponential`, data-gas accounting).
-/

namespace EIP4844

/-- Constant `BLOCK_RESOURCE_LIMITS = 30e6` from the `constants` dict. -/
def BLOCK_RESOURCE_LIMITS : ℚ := 30000000

/-- Constant `BLOCK_RESOURCE_TARGETS = 15e6` from the `constants` dict. -/
def BLOCK_RESOURCE_TARGETS : ℚ := 15000000

/-- Constant `BASEFEE_MAX_CHANGE_DENOMINATOR = 8` from the `constants` dict. -/
def BASEFEE_MAX_CHANGE_DENOMINATOR : ℚ := 8

/-- Constant `MAX_DATA_GAS_PER_BLOCK = 2**19` from the `constants` dict. -/
def MAX_DATA_GAS_PER_BLOCK : ℤ := 2 ^ 19

/-- Constant `TARGET_DATA_GAS_PER_BLOCK = 2**18` from the `constants` dict. -/
def TARGET_DATA_GAS_PER_BLOCK : ℤ := 2 ^ 18

/-- Constant `DATA_GAS_PER_BLOB = 2**17` from the `constants` dict. -/
def DATA_GAS_PER_BLOB : ℤ := 2 ^ 17

/-- Constant `MIN_DATA_GASPRICE = 1` from the `constants` dict. -/
def MIN_DATA_GASPRICE : ℕ := 1

/-- Constant `DATA_GASPRICE_UPDATE_FRACTION = 2225652` from the `constants` dict. -/
def DATA_GASPRICE_UPDATE_FRACTION : ℕ := 2225652

/-- The body of `fake_exponential`'s `while numerator_accum > 0` loop:
`output += numerator_accum; numerator_accum = (numerator_accum * numerator)
// (denominator * i); i += 1`.  The loop is embedded with an explicit fuel
argument; `fakeExpFuel` below is an upper bound on the number of iterations,
proved sufficient by `fakeExpGo_fuel_stable` (the result does not change if
more fuel is supplied), so the fueled function agrees with the Python
while-loop. -/
def fakeExpGo (numerator denominator : ℕ) : ℕ → ℕ → ℕ → ℕ → ℕ
  | 0, _, _, output => output
  | fuel + 1, i, numerator_accum, output =>
    if numerator_accum > 0 then
      fakeExpGo numerator denominator fuel (i + 1)
        (numerator_accum * numerator / (denominator * i))
        (output + numerator_accum)
    else output

/-- Bound on the remaining loop iterations of `fake_exponential` from state
`(i, numerator_accum)`: while `i ≤ numerator` the accumulator can grow by at
most a factor `numerator` per step, and afterwards it strictly decreases. -/
def fakeExpBound (numerator i numerator_accum : ℕ) : ℕ :=
  numerator_accum * (numerator + 1) ^ (numerator + 1 - i) + (numerator + 1 - i) + 1

/-- Fuel sufficient for `fake_exponential`'s loop starting from `i = 1`,
`numerator_accum = factor * denominator`. -/
def fakeExpFuel (factor numerator denominator : ℕ) : ℕ :=
  fakeExpBound numerator 1 (factor * denominator)

/-- Embedding of `fake_exponential(factor, numerator, denominator)`: the
integer Taylor-series approximation of `factor * e^(numerator/denominator)`,
`i = 1; output = 0; numerator_accum = factor * denominator; while ...;
return output // denominator`. -/
def fake_exponential (factor numerator denominator : ℕ) : ℕ :=
  fakeExpGo numerator denominator (fakeExpFuel factor numerator denominator)
    1 (factor * denominator) 0 / denominator

/-- Embedding of `calc_price_data(excess_data_gas)`.  The simulation's
`excess_data_gas` is a non-negative integer (it starts at `0` and
`update_excess_data_gas` clamps at `0`), so the argument is a natural. -/
def calc_price_data (excess_data_gas : ℕ) : ℕ :=
  fake_exponential MIN_DATA_GASPRICE excess_data_gas DATA_GASPRICE_UPDATE_FRACTION

/-- The closed two-variant transaction type: `base` embeds class
`Transaction` with fields `(max_priority_fee_per_gas, gas_used,
max_fee_per_gas)` in constructor order, `blob` embeds class
`BlobTransaction` adding `(max_fee_per_data_gas, blob_hashes)`.  Fee and
gas fields are Python floats, embedded as rationals; `blob_hashes` is a
Python int. -/
inductive Transaction where
  | base (max_priority_fee_per_gas gas_used max_fee_per_gas : ℚ)
  | blob (max_priority_fee_per_gas gas_used max_fee_per_gas : ℚ)
      (max_fee_per_data_gas : ℚ) (blob_hashes : ℤ)
deriving DecidableEq, Repr

namespace Transaction

/-- Field accessor `tx.gas_used`. -/
def gas_used : Transaction → ℚ
  | base _ g _ => g
  | blob _ g _ _ _ => g

/-- Field accessor `tx.max_fee_per_gas`. -/
def max_fee_per_gas : Transaction → ℚ
  | base _ _ m => m
  | blob _ _ m _ _ => m

/-- Field accessor `tx.max_priority_fee_per_gas`. -/
def max_priority_fee_per_gas : Transaction → ℚ
  | base p _ _ => p
  | blob p _ _ _ _ => p

/-- The Python expression `tx.blob_hashes if isinstance(tx, BlobTransaction)
else 0` used by `update_excess_data_gas`. -/
def blobCount : Transaction → ℤ
  | base _ _ _ => 0
  | blob _ _ _ _ b => b

/-- `isinstance(tx, BlobTransaction)`. -/
def isBlob : Transaction → Bool
  | base _ _ _ => false
  | blob _ _ _ _ _ => true

/-- Embedding of `is_valid(self, price, price_data)`: the base class checks
`max_fee_per_gas >= price`; `BlobTransaction` overrides it with
`max_fee_per_gas >= price and max_fee_per_data_gas >= price_data`. -/
def is_valid : Transaction → ℚ → ℚ → Bool
  | base _ _ m, price, _ => decide (price ≤ m)
  | blob _ _ m d _, price, price_data =>
    decide (price ≤ m) && decide (price_data ≤ d)

/-- Embedding of `get_premium(self, price)`:
`gas_used * min(max_fee_per_gas - price, max_priority_fee_per_gas)`. -/
def get_premium (tx : Transaction) (price : ℚ) : ℚ :=
  tx.gas_used * min (tx.max_fee_per_gas - price) tx.max_priority_fee_per_gas

end Transaction

/-- Embedding of `class Block`: the ordered list of included transactions. -/
structure Block where
  txs : List Transaction
deriving DecidableEq, Repr

/-- `sum([tx.gas_used for tx in block.txs])` as used by `update_price`. -/
def gasUtilized (b : Block) : ℚ :=
  (b.txs.map Transaction.gas_used).sum

/-- Embedding of `update_price` (the EIP-1559 rule): `new_price = price *
(1 + (utilized - target) / (target * BASEFEE_MAX_CHANGE_DENOMINATOR))`,
with `utilized` the block's total `gas_used`.  The radCAD bookkeeping
arguments `(params, step, h, s, _input)` are dropped; the state fields the
function reads (`price`, the block) are explicit arguments. -/
def update_price (price : ℚ) (block : Block) : ℚ :=
  price * (1 + (gasUtilized block - BLOCK_RESOURCE_TARGETS) /
    (BLOCK_RESOURCE_TARGETS * BASEFEE_MAX_CHANGE_DENOMINATOR))

/-- `constants["DATA_GAS_PER_BLOB"] * sum([tx.blob_hashes if isinstance(tx,
BlobTransaction) else 0 for tx in block.txs])` as used by
`update_excess_data_gas`. -/
def dataUtilized (b : Block) : ℤ :=
  DATA_GAS_PER_BLOB * (b.txs.map Transaction.blobCount).sum

/-- Embedding of `update_excess_data_gas` (the EIP-4844 rule):
`new_excess_data_gas = max(excess_data_gas + (utilized - target), 0)`. -/
def update_excess_data_gas (excess_data_gas : ℤ) (block : Block) : ℤ :=
  max (excess_data_gas + (dataUtilized block - TARGET_DATA_GAS_PER_BLOCK)) 0

/-- Insert `tx` into a list already sorted by descending `get_premium(price)`,
before the first element of strictly smaller premium.  Equal premiums keep
the earlier-demand transaction first, matching the stability of Python's
`sorted`. -/
def insertByPremium (price : ℚ) (tx : Transaction) : List Transaction → List Transaction
  | [] => [tx]
  | t :: ts =>
    if t.get_premium price ≤ tx.get_premium price then tx :: t :: ts
    else t :: insertByPremium price tx ts

/-- Embedding of `sorted(txs, key = lambda tx: -tx.get_premium(price))`: a
stable sort by descending premium.  Python's `sorted` is stable, and a stable
sort by a fixed key is extensionally unique, so this insertion sort computes
the same list. -/
def sortByPremium (price : ℚ) : List Transaction → List Transaction
  | [] => []
  | tx :: rest => insertByPremium price tx (sortByPremium price rest)

/-- The greedy inclusion loop of `build_block`: scan the sorted valid demand
keeping running totals `utilized` (execution gas, compared against
`gas_limit = BLOCK_RESOURCE_LIMITS`) and `utilized_data` (data gas, compared
against `data_limit = MAX_DATA_GAS_PER_BLOCK`).  A transaction is considered
only while `utilized <= gas_limit` (otherwise `break`); a blob transaction is
included while `utilized_data <= data_limit` and skipped (`continue`) once
`utilized_data > data_limit`; a base transaction under the gas cap is always
included. -/
def packTxs : List Transaction → ℚ → ℤ → List Transaction
  | [], _, _ => []
  | tx :: rest, utilized, utilized_data =>
    if utilized ≤ BLOCK_RESOURCE_LIMITS then
      match tx with
      | .blob p g m d b =>
        if utilized_data ≤ MAX_DATA_GAS_PER_BLOCK then
          Transaction.blob p g m d b ::
            packTxs rest (utilized + g) (utilized_data + b * DATA_GAS_PER_BLOB)
        else
          packTxs rest utilized utilized_data
      | .base p g m =>
        Transaction.base p g m :: packTxs rest (utilized + g) utilized_data
    else []

/-- Embedding of `build_block`: derive `price_data = calc_price_data(excess)`,
filter the demand to transactions passing `is_valid(price, price_data)`,
sort by descending premium, then run the greedy inclusion loop from zero
totals.  Demand is the dict's values in insertion order.  `excess_data_gas`
is a natural, matching the simulation invariant that it is clamped at `0`. -/
def build_block (demand : List Transaction) (price : ℚ) (excess_data_gas : ℕ) : Block :=
  let price_data : ℚ := (calc_price_data excess_data_gas : ℕ)
  let sorted_valid_demand :=
    sortByPremium price (demand.filter fun tx => tx.is_valid price price_data)
  Block.mk (packTxs sorted_valid_demand 0 0)

/-- Total execution gas of a transaction list (the loop's final `utilized`
for the included list). -/
def sumGasUsed (l : List Transaction) : ℚ :=
  (l.map Transaction.gas_used).sum

/-- Largest single `gas_used` in a transaction list (`0` for the empty
list). -/
def maxGasUsed (l : List Transaction) : ℚ :=
  l.foldr (fun tx m => max tx.gas_used m) 0

/-- Data gas consumed by one transaction: `blob_hashes * DATA_GAS_PER_BLOB`
for blob transactions, `0` otherwise. -/
def txDataGas (tx : Transaction) : ℤ :=
  tx.blobCount * DATA_GAS_PER_BLOB

/-- Total data gas of a transaction list (the loop's final `utilized_data`
for the included list). -/
def sumDataGas (l : List Transaction) : ℤ :=
  (l.map txDataGas).sum

/-- Largest single transaction data gas in a transaction list (`0` for the
empty list). -/
def maxDataGas (l : List Transaction) : ℤ :=
  l.foldr (fun tx m => max (txDataGas tx) m) 0

/-! Helper lemmas about the fueled `fake_exponential` loop: the output only
grows, the loop is monotone in the numerator and accumulator, and the result
is independent of the fuel once the fuel reaches `fakeExpBound`, which
decreases at every iteration. -/

theorem fakeExpGo_le (n d : ℕ) :
    ∀ fuel i a out, out ≤ fakeExpGo n d fuel i a out := by
  intro fuel
  induction fuel with
  | zero => intro i a out; exact Nat.le_refl _
  | succ f ih =>
    intro i a out
    simp only [fakeExpGo]
    split
    · exact Nat.le_trans (Nat.le_add_right out a) (ih _ _ _)
    · exact Nat.le_refl _

theorem fakeExpGo_mono (d : ℕ) :
    ∀ fuel n₁ n₂ i a₁ a₂ out₁ out₂, n₁ ≤ n₂ → a₁ ≤ a₂ → out₁ ≤ out₂ →
      fakeExpGo n₁ d fuel i a₁ out₁ ≤ fakeExpGo n₂ d fuel i a₂ out₂ := by
  intro fuel
  induction fuel with
  | zero => intro _ _ _ _ _ _ _ _ _ hout; exact hout
  | succ f ih =>
    intro n₁ n₂ i a₁ a₂ out₁ out₂ hn ha hout
    simp only [fakeExpGo]
    by_cases h1 : a₁ > 0
    · have h2 : a₂ > 0 := Nat.lt_of_lt_of_le h1 ha
      rw [if_pos h1, if_pos h2]
      exact ih _ _ _ _ _ _ _ hn (Nat.div_le_div_right (Nat.mul_le_mul ha hn))
        (Nat.add_le_add hout ha)
    · rw [if_neg h1]
      split
      · exact Nat.le_trans (Nat.le_trans hout (Nat.le_add_right out₂ a₂))
          (fakeExpGo_le _ _ _ _ _ _)
      · exact hout

theorem fakeExpBound_pos (n i a : ℕ) : 0 < fakeExpBound n i a := by
  unfold fakeExpBound; omega

theorem fakeExpBound_step (n d i a : ℕ) (ha : 0 < a) :
    fakeExpBound n (i + 1) (a * n / (d * i)) < fakeExpBound n i a := by
  unfold fakeExpBound
  by_cases hcase : i ≤ n
  · -- growth phase: i ≤ n, so n + 1 - i = (n - i) + 1 ≥ 1
    have hk : n + 1 - i = (n - i) + 1 := by omega
    have hk2 : n + 1 - (i + 1) = n - i := by omega
    rw [hk, hk2, pow_succ]
    have h2 : a * n / (d * i) * (n + 1) ^ (n - i) ≤ a * n * (n + 1) ^ (n - i) :=
      Nat.mul_le_mul_right _ (Nat.div_le_self _ _)
    have h3 : a * ((n + 1) ^ (n - i) * (n + 1)) =
        a * n * (n + 1) ^ (n - i) + a * (n + 1) ^ (n - i) := by ring
    have h4 : 0 < a * (n + 1) ^ (n - i) :=
      Nat.mul_pos ha (Nat.pow_pos (Nat.succ_pos n))
    omega
  · -- decay phase: i ≥ n + 1, both exponents are 0
    have hk : n + 1 - i = 0 := by omega
    have hk2 : n + 1 - (i + 1) = 0 := by omega
    rw [hk, hk2, pow_zero, Nat.mul_one, Nat.mul_one]
    have hdec : a * n / (d * i) < a := by
      rcases Nat.eq_zero_or_pos (d * i) with hd | hd
      · rw [hd, Nat.div_zero]; exact ha
      · rw [Nat.div_lt_iff_lt_mul hd]
        rcases Nat.eq_zero_or_pos d with h0 | h0
        · subst h0; simp at hd
        · have hi2 : i ≤ d * i := Nat.le_mul_of_pos_left i h0
          have hni : n + 1 ≤ d * i := by omega
          have e1 : a * n + a = a * (n + 1) := by ring
          have e2 : a * (n + 1) ≤ a * (d * i) := Nat.mul_le_mul (Nat.le_refl a) hni
          omega
    omega

theorem fakeExpGo_fuel_stable (n d : ℕ) :
    ∀ m fuel₁ fuel₂ i a out, fakeExpBound n i a ≤ m →
      fakeExpBound n i a ≤ fuel₁ → fakeExpBound n i a ≤ fuel₂ →
      fakeExpGo n d fuel₁ i a out = fakeExpGo n d fuel₂ i a out := by
  intro m
  induction m with
  | zero => intro fuel₁ fuel₂ i a out hm _ _
            exact absurd hm (Nat.not_le_of_lt (fakeExpBound_pos n i a))
  | succ m ih =>
    intro fuel₁ fuel₂ i a out hm h1 h2
    have hp := fakeExpBound_pos n i a
    obtain ⟨f₁, rfl⟩ : ∃ f₁, fuel₁ = f₁ + 1 := ⟨fuel₁ - 1, by omega⟩
    obtain ⟨f₂, rfl⟩ : ∃ f₂, fuel₂ = f₂ + 1 := ⟨fuel₂ - 1, by omega⟩
    simp only [fakeExpGo]
    by_cases ha : a > 0
    · rw [if_pos ha, if_pos ha]
      have hstep := fakeExpBound_step n d i a ha
      exact ih _ _ _ _ _ (by omega) (by omega) (by omega)
    · rw [if_neg ha, if_neg ha]

theorem fake_exponential_eq_go (f n d fuel : ℕ)
    (h : fakeExpBound n 1 (f * d) ≤ fuel) :
    fake_exponential f n d = fakeExpGo n d fuel 1 (f * d) 0 / d := by
  unfold fake_exponential fakeExpFuel
  congr 1
  exact fakeExpGo_fuel_stable n d (max (fakeExpBound n 1 (f * d)) fuel) _ _ _ _ _
    (Nat.le_max_left _ _) (Nat.le_refl _) h

theorem fake_exponential_mono (f d n₁ n₂ : ℕ) (h : n₁ ≤ n₂) :
    fake_exponential f n₁ d ≤ fake_exponential f n₂ d := by
  rw [fake_exponential_eq_go f n₁ d
      (max (fakeExpBound n₁ 1 (f * d)) (fakeExpBound n₂ 1 (f * d))) (Nat.le_max_left _ _),
    fake_exponential_eq_go f n₂ d
      (max (fakeExpBound n₁ 1 (f * d)) (fakeExpBound n₂ 1 (f * d))) (Nat.le_max_right _ _)]
  exact Nat.div_le_div_right
    (fakeExpGo_mono d _ n₁ n₂ 1 (f * d) (f * d) 0 0 h (Nat.le_refl _) (Nat.le_refl _))

/-! Helper lemmas about the greedy inclusion loop `packTxs` and the
premium sort: unfolding equations per branch, membership preservation, and
the two one-transaction overshoot invariants. -/

theorem mem_insertByPremium (price : ℚ) (tx x : Transaction) :
    ∀ l, x ∈ insertByPremium price tx l ↔ x = tx ∨ x ∈ l := by
  intro l
  induction l with
  | nil => simp [insertByPremium]
  | cons t ts ih =>
    simp only [insertByPremium]
    split
    · simp [List.mem_cons]
    · simp only [List.mem_cons, ih]
      tauto

theorem mem_sortByPremium (price : ℚ) (x : Transaction) :
    ∀ l, x ∈ sortByPremium price l ↔ x ∈ l := by
  intro l
  induction l with
  | nil => simp [sortByPremium]
  | cons t ts ih =>
    simp only [sortByPremium, mem_insertByPremium, ih, List.mem_cons]

theorem sumGasUsed_nil : sumGasUsed [] = 0 := rfl

theorem sumGasUsed_cons (t : Transaction) (l : List Transaction) :
    sumGasUsed (t :: l) = t.gas_used + sumGasUsed l := by
  simp [sumGasUsed]

theorem maxGasUsed_nil : maxGasUsed [] = 0 := rfl

theorem maxGasUsed_cons (t : Transaction) (l : List Transaction) :
    maxGasUsed (t :: l) = max t.gas_used (maxGasUsed l) := rfl

theorem sumDataGas_nil : sumDataGas [] = 0 := rfl

theorem sumDataGas_cons (t : Transaction) (l : List Transaction) :
    sumDataGas (t :: l) = txDataGas t + sumDataGas l := by
  simp [sumDataGas]

theorem maxDataGas_nil : maxDataGas [] = 0 := rfl

theorem maxDataGas_cons (t : Transaction) (l : List Transaction) :
    maxDataGas (t :: l) = max (txDataGas t) (maxDataGas l) := rfl

theorem maxGasUsed_nonneg (l : List Transaction) : 0 ≤ maxGasUsed l := by
  induction l with
  | nil => exact le_refl 0
  | cons t ts ih => rw [maxGasUsed_cons]; exact le_trans ih (le_max_right _ _)

theorem maxDataGas_nonneg (l : List Transaction) : 0 ≤ maxDataGas l := by
  induction l with
  | nil => exact le_refl 0
  | cons t ts ih => rw [maxDataGas_cons]; exact le_trans ih (le_max_right _ _)

theorem packTxs_base_cons (p g m : ℚ) (l : List Transaction) (u : ℚ) (dd : ℤ)
    (hu : u ≤ BLOCK_RESOURCE_LIMITS) :
    packTxs (Transaction.base p g m :: l) u dd =
      Transaction.base p g m :: packTxs l (u + g) dd := by
  simp only [packTxs, if_pos hu]

theorem packTxs_blob_cons (p g m d : ℚ) (b : ℤ) (l : List Transaction) (u : ℚ) (dd : ℤ)
    (hu : u ≤ BLOCK_RESOURCE_LIMITS) (hd : dd ≤ MAX_DATA_GAS_PER_BLOCK) :
    packTxs (Transaction.blob p g m d b :: l) u dd =
      Transaction.blob p g m d b :: packTxs l (u + g) (dd + b * DATA_GAS_PER_BLOB) := by
  simp only [packTxs, if_pos hu, if_pos hd]

theorem packTxs_blob_skip (p g m d : ℚ) (b : ℤ) (l : List Transaction) (u : ℚ) (dd : ℤ)
    (hu : u ≤ BLOCK_RESOURCE_LIMITS) (hd : ¬ dd ≤ MAX_DATA_GAS_PER_BLOCK) :
    packTxs (Transaction.blob p g m d b :: l) u dd = packTxs l u dd := by
  simp only [packTxs, if_pos hu, if_neg hd]

theorem packTxs_stop (t : Transaction) (l : List Transaction) (u : ℚ) (dd : ℤ)
    (hu : ¬ u ≤ BLOCK_RESOURCE_LIMITS) :
    packTxs (t :: l) u dd = [] := by
  cases t <;> simp only [packTxs, if_neg hu]

theorem packTxs_subset :
    ∀ (l : List Transaction) (u : ℚ) (dd : ℤ) (x : Transaction),
      x ∈ packTxs l u dd → x ∈ l := by
  intro l
  induction l with
  | nil => intro u dd x h; simp [packTxs] at h
  | cons t ts ih =>
    intro u dd x h
    by_cases hu : u ≤ BLOCK_RESOURCE_LIMITS
    · cases t with
      | base p g m =>
        rw [packTxs_base_cons p g m ts u dd hu] at h
        rcases List.mem_cons.mp h with h1 | h1
        · exact h1 ▸ List.mem_cons_self _ _
        · exact List.mem_cons_of_mem _ (ih _ _ _ h1)
      | blob p g m d b =>
        by_cases hd : dd ≤ MAX_DATA_GAS_PER_BLOCK
        · rw [packTxs_blob_cons p g m d b ts u dd hu hd] at h
          rcases List.mem_cons.mp h with h1 | h1
          · exact h1 ▸ List.mem_cons_self _ _
          · exact List.mem_cons_of_mem _ (ih _ _ _ h1)
        · rw [packTxs_blob_skip p g m d b ts u dd hu hd] at h
          exact List.mem_cons_of_mem _ (ih _ _ _ h)
    · rw [packTxs_stop t ts u dd hu] at h
      simp at h

theorem packTxs_gas_bound :
    ∀ (l : List Transaction) (u : ℚ) (dd : ℤ),
      packTxs l u dd = [] ∨
        u + sumGasUsed (packTxs l u dd) ≤
          BLOCK_RESOURCE_LIMITS + maxGasUsed (packTxs l u dd) := by
  intro l
  induction l with
  | nil => intro u dd; left; rfl
  | cons t ts ih =>
    intro u dd
    by_cases hu : u ≤ BLOCK_RESOURCE_LIMITS
    · right
      cases t with
      | base p g m =>
        rw [packTxs_base_cons p g m ts u dd hu, sumGasUsed_cons, maxGasUsed_cons]
        have hg : (Transaction.base p g m).gas_used = g := rfl
        rw [hg]
        rcases ih (u + g) dd with h | h
        · rw [h, sumGasUsed_nil, maxGasUsed_nil]
          have := le_max_left g (0:ℚ)
          linarith
        · have hmax := le_max_right g (maxGasUsed (packTxs ts (u + g) dd))
          linarith
      | blob p g m d b =>
        by_cases hd : dd ≤ MAX_DATA_GAS_PER_BLOCK
        · rw [packTxs_blob_cons p g m d b ts u dd hu hd, sumGasUsed_cons, maxGasUsed_cons]
          have hg : (Transaction.blob p g m d b).gas_used = g := rfl
          rw [hg]
          rcases ih (u + g) (dd + b * DATA_GAS_PER_BLOB) with h | h
          · rw [h, sumGasUsed_nil, maxGasUsed_nil]
            have := le_max_left g (0:ℚ)
            linarith
          · have hmax := le_max_right g (maxGasUsed (packTxs ts (u + g) (dd + b * DATA_GAS_PER_BLOB)))
            linarith
        · rw [packTxs_blob_skip p g m d b ts u dd hu hd]
          rcases ih u dd with h | h
          · rw [h, sumGasUsed_nil, maxGasUsed_nil]
            simpa using hu
          · exact h
    · left
      exact packTxs_stop t ts u dd hu

theorem packTxs_data_bound :
    ∀ (l : List Transaction) (u : ℚ) (dd : ℤ),
      sumDataGas (packTxs l u dd) = 0 ∨
        dd + sumDataGas (packTxs l u dd) ≤
          MAX_DATA_GAS_PER_BLOCK + maxDataGas (packTxs l u dd) := by
  intro l
  induction l with
  | nil => intro u dd; left; rfl
  | cons t ts ih =>
    intro u dd
    by_cases hu : u ≤ BLOCK_RESOURCE_LIMITS
    · cases t with
      | base p g m =>
        rw [packTxs_base_cons p g m ts u dd hu, sumDataGas_cons, maxDataGas_cons]
        have hg : txDataGas (Transaction.base p g m) = 0 := by
          simp [txDataGas, Transaction.blobCount]
        rw [hg]
        rcases ih (u + g) dd with h | h
        · left; rw [h]; ring
        · right
          have hmax := le_max_right (0:ℤ) (maxDataGas (packTxs ts (u + g) dd))
          linarith
      | blob p g m d b =>
        by_cases hd : dd ≤ MAX_DATA_GAS_PER_BLOCK
        · right
          rw [packTxs_blob_cons p g m d b ts u dd hu hd, sumDataGas_cons, maxDataGas_cons]
          have hg : txDataGas (Transaction.blob p g m d b) = b * DATA_GAS_PER_BLOB := rfl
          rw [hg]
          rcases ih (u + g) (dd + b * DATA_GAS_PER_BLOB) with h | h
          · rw [h]
            have := le_max_left (b * DATA_GAS_PER_BLOB)
              (maxDataGas (packTxs ts (u + g) (dd + b * DATA_GAS_PER_BLOB)))
            linarith
          · have hmax := le_max_right (b * DATA_GAS_PER_BLOB)
              (maxDataGas (packTxs ts (u + g) (dd + b * DATA_GAS_PER_BLOB)))
            linarith
        · rw [packTxs_blob_skip p g m d b ts u dd hu hd]
          exact ih u dd
    · rw [packTxs_stop t ts u dd hu]
      left; rfl
/-! Claim theorems. -/

/-- C1: every transaction in the Block returned by `build_block` satisfies
`is_valid` against that step's `price` and derived `data_price`; in
particular a blob transaction whose `max_fee_per_data_gas` is below the
current data price is excluded entirely. -/
theorem build_block_only_valid (demand : List Transaction) (price : ℚ)
    (excess_data_gas : ℕ) :
    ((build_block demand price excess_data_gas).txs.all fun tx =>
      tx.is_valid price (calc_price_data excess_data_gas : ℚ)) = true := by
  rw [List.all_eq_true]
  intro tx htx
  have hb : (build_block demand price excess_data_gas).txs =
      packTxs (sortByPremium price (demand.filter fun t =>
        t.is_valid price (calc_price_data excess_data_gas : ℚ))) 0 0 := rfl
  rw [hb] at htx
  have h1 := packTxs_subset _ _ _ _ htx
  have h2 := (mem_sortByPremium _ _ _).mp h1
  exact (List.mem_filter.mp h2).2

/-- C2: `update_excess_data_gas` returns
`max(0, excess + utilized_data - target)` with `utilized_data` the sum over
transactions of `blob_count * data_gas_per_blob`, and the result is never
negative. -/
theorem update_excess_data_gas_spec (excess_data_gas : ℤ) (b : Block) :
    update_excess_data_gas excess_data_gas b =
      max 0 (excess_data_gas +
        (b.txs.map fun tx => tx.blobCount * DATA_GAS_PER_BLOB).sum -
        TARGET_DATA_GAS_PER_BLOCK) ∧
    0 ≤ update_excess_data_gas excess_data_gas b := by
  constructor
  · unfold update_excess_data_gas dataUtilized
    rw [max_comm]
    congr 1
    have hs : (b.txs.map fun tx => tx.blobCount * DATA_GAS_PER_BLOB).sum
        = (b.txs.map Transaction.blobCount).sum * DATA_GAS_PER_BLOB := by
      rw [← List.sum_map_mul_right]
    rw [hs]; ring
  · exact le_max_right _ _

/-- C3: `update_price` returns
`price * (1 + (utilized - target) / (target * denominator))`, and a block
utilizing exactly `30e6` gas yields `price * 1.125`. -/
theorem update_price_spec (price : ℚ) (b : Block) :
    update_price price b = price * (1 +
      ((b.txs.map Transaction.gas_used).sum - BLOCK_RESOURCE_TARGETS) /
        (BLOCK_RESOURCE_TARGETS * BASEFEE_MAX_CHANGE_DENOMINATOR)) ∧
    (gasUtilized b = 30000000 → update_price price b = price * (1125 / 1000)) := by
  constructor
  · rfl
  · intro h
    unfold update_price
    rw [h]
    norm_num [BLOCK_RESOURCE_TARGETS, BASEFEE_MAX_CHANGE_DENOMINATOR]

/-- Witness for C3 at a concrete one-transaction block totalling `30e6`. -/
theorem update_price_spec_witness :
    gasUtilized (Block.mk [Transaction.base 1 30000000 1]) = 30000000 ∧
    update_price 5 (Block.mk [Transaction.base 1 30000000 1]) = 5 * (1125 / 1000) := by
  have hg : gasUtilized (Block.mk [Transaction.base 1 30000000 1]) = 30000000 := by
    simp [gasUtilized, Transaction.gas_used]
  exact ⟨hg, (update_price_spec 5 _).2 hg⟩

/-- C4: total execution gas of the built block never exceeds
`BLOCK_RESOURCE_LIMITS` plus the largest included transaction's `gas_used`. -/
theorem build_block_gas_overshoot_bound (demand : List Transaction) (price : ℚ)
    (excess_data_gas : ℕ) (hgas : ∀ tx ∈ demand, 0 ≤ tx.gas_used) :
    sumGasUsed (build_block demand price excess_data_gas).txs ≤
      BLOCK_RESOURCE_LIMITS + maxGasUsed (build_block demand price excess_data_gas).txs := by
  have hb : (build_block demand price excess_data_gas).txs =
      packTxs (sortByPremium price (demand.filter fun t =>
        t.is_valid price (calc_price_data excess_data_gas : ℚ))) 0 0 := rfl
  rw [hb]
  rcases packTxs_gas_bound (sortByPremium price (demand.filter fun t =>
      t.is_valid price (calc_price_data excess_data_gas : ℚ))) 0 0 with h | h
  · rw [h, sumGasUsed_nil, maxGasUsed_nil]
    norm_num [BLOCK_RESOURCE_LIMITS]
  · simpa using h

/-- Witness for C4 at a concrete demand. -/
theorem build_block_gas_overshoot_bound_witness :
    (∀ tx ∈ [Transaction.base 1 50000 100], 0 ≤ tx.gas_used) ∧
    sumGasUsed (build_block [Transaction.base 1 50000 100] 1 0).txs ≤
      BLOCK_RESOURCE_LIMITS +
        maxGasUsed (build_block [Transaction.base 1 50000 100] 1 0).txs :=
  ⟨by decide, build_block_gas_overshoot_bound _ 1 0 (by decide)⟩

/-- C5: the two cutoffs of the greedy scan are asymmetric: exceeding the
execution-gas limit stops the scan entirely, while exceeding the data-gas
limit only skips the blob transaction and the scan continues, still
including later base transactions under the gas cap. -/
theorem packTxs_cutoff_asymmetry (l : List Transaction) (u : ℚ) (dd : ℤ) :
    (BLOCK_RESOURCE_LIMITS < u → packTxs l u dd = []) ∧
    (∀ p g m d b, u ≤ BLOCK_RESOURCE_LIMITS → MAX_DATA_GAS_PER_BLOCK < dd →
      packTxs (Transaction.blob p g m d b :: l) u dd = packTxs l u dd) ∧
    (∀ p g m, u ≤ BLOCK_RESOURCE_LIMITS →
      packTxs (Transaction.base p g m :: l) u dd =
        Transaction.base p g m :: packTxs l (u + g) dd) := by
  refine ⟨fun hu => ?_,
    fun p g m d b hu hd => packTxs_blob_skip p g m d b l u dd hu (not_le.mpr hd),
    fun p g m hu => packTxs_base_cons p g m l u dd hu⟩
  cases l with
  | nil => rfl
  | cons t ts => exact packTxs_stop t ts u dd (not_le.mpr hu)

/-- Witness for C5 instantiating all three branches. -/
theorem packTxs_cutoff_asymmetry_witness :
    packTxs [Transaction.base 1 2 3] 40000000 0 = [] ∧
    packTxs [Transaction.blob 1 2 3 4 5] 0 (2 ^ 19 + 1) = packTxs [] 0 (2 ^ 19 + 1) ∧
    packTxs [Transaction.base 1 2 3] 0 0 = Transaction.base 1 2 3 :: packTxs [] (0 + 2) 0 :=
  ⟨(packTxs_cutoff_asymmetry [Transaction.base 1 2 3] 40000000 0).1 (by decide),
   (packTxs_cutoff_asymmetry [] 0 (2 ^ 19 + 1)).2.1 1 2 3 4 5 (by decide) (by decide),
   (packTxs_cutoff_asymmetry [] 0 0).2.2 1 2 3 (by decide)⟩

/-- C6: at zero excess the data-price oracle returns exactly
`MIN_DATA_GASPRICE`. -/
theorem calc_price_data_zero : calc_price_data 0 = MIN_DATA_GASPRICE := by decide

/-- C7: the data-price oracle is monotone in `excess_data_gas`
(`fake_exponential` is monotonically non-decreasing in its numerator). -/
theorem calc_price_data_mono (e1 e2 : ℕ) (h : e1 ≤ e2) :
    calc_price_data e1 ≤ calc_price_data e2 :=
  fake_exponential_mono MIN_DATA_GASPRICE DATA_GASPRICE_UPDATE_FRACTION e1 e2 h

/-- Witness for C7 at concrete excess values. -/
theorem calc_price_data_mono_witness :
    2 ≤ 7 ∧ calc_price_data 2 ≤ calc_price_data 7 :=
  ⟨by decide, calc_price_data_mono 2 7 (by decide)⟩

/-- C8 counterexample: a transaction with negative `gas_used` passes
`is_valid` and is included by `build_block`, so validation does not reject
negative fields. -/
theorem negative_gas_tx_included :
    (Transaction.base 1 (-5) 100).gas_used < 0 ∧
    (Transaction.base 1 (-5) 100).is_valid 1 1 = true ∧
    Transaction.base 1 (-5) 100 ∈ (build_block [Transaction.base 1 (-5) 100] 1 0).txs :=
  ⟨by decide, by decide, by decide⟩

/-- C8 amended: validation checks only the fee ceilings against the prices;
a transaction with negative `max_fee_per_gas` is rejected for every positive
price, while negative `gas_used`, `max_priority_fee_per_gas` or
`blob_hashes` are not checked. -/
theorem negative_max_fee_rejected (p g m d : ℚ) (b : ℤ) (price price_data : ℚ)
    (hm : m < 0) (hp : 0 < price) :
    (Transaction.base p g m).is_valid price price_data = false ∧
    (Transaction.blob p g m d b).is_valid price price_data = false := by
  have hnot : ¬ price ≤ m := fun hle => absurd (lt_of_le_of_lt hle hm) (not_lt.mpr hp.le)
  constructor
  · simp [Transaction.is_valid, hnot]
  · simp [Transaction.is_valid, hnot]

/-- Witness for the amended C8. -/
theorem negative_max_fee_rejected_witness :
    ((-3 : ℚ) < 0) ∧ ((0 : ℚ) < 1) ∧
    (Transaction.base 1 2 (-3)).is_valid 1 0 = false ∧
    (Transaction.blob 1 2 (-3) 5 1).is_valid 1 0 = false :=
  ⟨by decide, by decide,
   (negative_max_fee_rejected 1 2 (-3) 5 1 1 0 (by decide) (by decide)).1,
   (negative_max_fee_rejected 1 2 (-3) 5 1 1 0 (by decide) (by decide)).2⟩

/-- C9 counterexample: `update_price` has no clamp and returns a negative
price from the positive prior price `1` when the block's total `gas_used`
is sufficiently negative. -/
theorem update_price_nonpositive_example :
    ((0 : ℚ) < 1) ∧
    update_price 1 (Block.mk [Transaction.base 1 (-120000000) 1000]) < 0 := by
  constructor
  · norm_num
  · norm_num [update_price, gasUtilized, BLOCK_RESOURCE_TARGETS,
      BASEFEE_MAX_CHANGE_DENOMINATOR, Transaction.gas_used]

/-- C9 amended: there is no clamp in `update_price`, but for every positive
prior price and every block whose transactions all have non-negative
`gas_used` the new price is at least `price * 7/8`, hence positive. -/
theorem update_price_pos_of_nonneg_gas (price : ℚ) (b : Block) (hp : 0 < price)
    (hgas : ∀ tx ∈ b.txs, 0 ≤ tx.gas_used) :
    price * (7 / 8) ≤ update_price price b ∧ 0 < update_price price b := by
  have hU : 0 ≤ gasUtilized b := by
    unfold gasUtilized
    apply List.sum_nonneg
    intro x hx
    rcases List.mem_map.mp hx with ⟨tx, htx, rfl⟩
    exact hgas tx htx
  have hfac : (7 : ℚ) / 8 ≤ 1 + (gasUtilized b - BLOCK_RESOURCE_TARGETS) /
      (BLOCK_RESOURCE_TARGETS * BASEFEE_MAX_CHANGE_DENOMINATOR) := by
    have he : (gasUtilized b - BLOCK_RESOURCE_TARGETS) /
        (BLOCK_RESOURCE_TARGETS * BASEFEE_MAX_CHANGE_DENOMINATOR)
        = gasUtilized b / 120000000 - 1 / 8 := by
      unfold BLOCK_RESOURCE_TARGETS BASEFEE_MAX_CHANGE_DENOMINATOR
      ring
    rw [he]
    have hq : (0:ℚ) ≤ gasUtilized b / 120000000 := by positivity
    linarith
  have hle : price * (7 / 8) ≤ update_price price b := by
    unfold update_price
    exact mul_le_mul_of_nonneg_left hfac hp.le
  exact ⟨hle, lt_of_lt_of_le (mul_pos hp (by norm_num)) hle⟩

/-- Witness for the amended C9. -/
theorem update_price_pos_of_nonneg_gas_witness :
    ((0 : ℚ) < 4) ∧
    (∀ tx ∈ (Block.mk [Transaction.base 1 50000 100]).txs, 0 ≤ tx.gas_used) ∧
    4 * (7 / 8) ≤ update_price 4 (Block.mk [Transaction.base 1 50000 100]) ∧
    0 < update_price 4 (Block.mk [Transaction.base 1 50000 100]) :=
  ⟨by decide, by decide,
   (update_price_pos_of_nonneg_gas 4 _ (by decide) (by decide)).1,
   (update_price_pos_of_nonneg_gas 4 _ (by decide) (by decide)).2⟩

/-- C10: total data gas of the built block never exceeds
`MAX_DATA_GAS_PER_BLOCK` plus the largest included blob transaction's
`blob_hashes * DATA_GAS_PER_BLOB`. -/
theorem build_block_data_overshoot_bound (demand : List Transaction) (price : ℚ)
    (excess_data_gas : ℕ) (hblob : ∀ tx ∈ demand, 0 ≤ tx.blobCount) :
    sumDataGas (build_block demand price excess_data_gas).txs ≤
      MAX_DATA_GAS_PER_BLOCK + maxDataGas (build_block demand price excess_data_gas).txs := by
  have hb : (build_block demand price excess_data_gas).txs =
      packTxs (sortByPremium price (demand.filter fun t =>
        t.is_valid price (calc_price_data excess_data_gas : ℚ))) 0 0 := rfl
  rw [hb]
  rcases packTxs_data_bound (sortByPremium price (demand.filter fun t =>
      t.is_valid price (calc_price_data excess_data_gas : ℚ))) 0 0 with h | h
  · rw [h]
    have h2 := maxDataGas_nonneg (packTxs (sortByPremium price (demand.filter fun t =>
      t.is_valid price (calc_price_data excess_data_gas : ℚ))) 0 0)
    have h3 : (0:ℤ) ≤ MAX_DATA_GAS_PER_BLOCK := by decide
    linarith
  · simpa using h

/-- Witness for C10 at a concrete demand containing a blob transaction. -/
theorem build_block_data_overshoot_bound_witness :
    (∀ tx ∈ [Transaction.blob 1 50000 100 50 2], 0 ≤ tx.blobCount) ∧
    sumDataGas (build_block [Transaction.blob 1 50000 100 50 2] 1 0).txs ≤
      MAX_DATA_GAS_PER_BLOCK +
        maxDataGas (build_block [Transaction.blob 1 50000 100 50 2] 1 0).txs :=
  ⟨by decide, build_block_data_overshoot_bound _ 1 0 (by decide)⟩
end EIP4844
